import Mathlib

/-!
# Verification of the POS/CRM debt-ledger and order-reconciliation logic

Shallow embedding of the server routes that manage the debt ledger
(`user_debt_adjustments`), orders, order items and product stock, translated
from the Express route handlers (`server/routes/users.js`,
`server/routes/orders.js`) and the SQL queries they issue.

Monetary amounts and prices are modelled as `Int` (the source stores
`DECIMAL(10,2)`; all arithmetic used by the claims is addition, subtraction
and multiplication, which is exact). Timestamps are `Int` milliseconds.
-/

/-- Ledger currency (`user_debt_adjustments.currency`, nullable in schema). -/
inductive Currency
  | EUR
  | MKD
deriving DecidableEq, Repr

/-- Product category: schema CHECK allows `accessories` and `smartphones`. -/
inductive Category
  | smartphones
  | accessories
deriving DecidableEq, Repr

/-- Order status: schema CHECK list. -/
inductive OrderStatus
  | pending
  | approved
  | shipped
  | completed
  | cancelled
deriving DecidableEq, Repr

/-- Product stock status. -/
inductive StockStatus
  | enabled
  | disabled
deriving DecidableEq, Repr

/-- `adjustment_type` tag; the routes only ever write `manual_reduction`. -/
inductive AdjustmentType
  | manual_set
  | manual_reduction
deriving DecidableEq, Repr

/-- Row of `products`. -/
structure Product where
  id : Nat
  name : String
  price : Int
  stockQuantity : Int
  stockStatus : StockStatus
  category : Category
deriving DecidableEq, Repr

/-- Row of `orders`. -/
structure Order where
  id : Nat
  clientId : Option Nat
  guestName : Option String
  status : OrderStatus
  originalStatus : OrderStatus
  totalAmount : Int
  discountAmount : Int
  originalTotal : Int
deriving DecidableEq, Repr

/-- Row of `order_items`. -/
structure OrderItem where
  orderId : Nat
  productId : Nat
  quantity : Int
  price : Int
deriving DecidableEq, Repr

/-- Row of `user_debt_adjustments` (a ledger entry). -/
structure DebtAdjustment where
  userId : Nat
  amount : Int
  adjType : AdjustmentType
  currency : Option Currency
  notes : String
  createdBy : Nat
  createdAt : Int
deriving DecidableEq, Repr

/-- The relational state the route handlers read and write. -/
structure DBState where
  products : List Product
  orders : List Order
  orderItems : List OrderItem
  adjustments : List DebtAdjustment
deriving DecidableEq, Repr

/-! ## Balance derivation (profile and invoice debt reads) -/

/-- Sum of ledger amounts for one (client, currency) pair:
`SUM(adjustment_amount) ... WHERE user_id = $1 AND currency = c`. -/
def ledgerSum (l : List DebtAdjustment) (uid : Nat) (c : Currency) : Int :=
  ((l.filter (fun e => e.userId == uid && e.currency == some c)).map
    (fun e => e.amount)).sum

/-- The per-currency sums computed by `GET /users/:id/profile`
(`SELECT currency, SUM(adjustment_amount) ... GROUP BY currency`), folded
row-by-row exactly as the grouped aggregation accumulates: returns
`(eurSum, mkdSum)`. -/
def profileSums (l : List DebtAdjustment) (uid : Nat) : Int × Int :=
  l.foldl
    (fun acc e =>
      if e.userId == uid then
        match e.currency with
        | some Currency.EUR => (acc.1 + e.amount, acc.2)
        | some Currency.MKD => (acc.1, acc.2 + e.amount)
        | none => acc
      else acc)
    (0, 0)

/-- Debt reported by the user-profile financial summary:
`eurDebt = -eurSum`, `mkdDebt = -mkdSum` (`users.js`). -/
def profileDebt (s : DBState) (uid : Nat) (c : Currency) : Int :=
  match c with
  | Currency.EUR => -(profileSums s.adjustments uid).1
  | Currency.MKD => -(profileSums s.adjustments uid).2

/-- Debt embedded in a generated invoice (`GET /orders/:id/invoice`):
`ABS(SUM(CASE WHEN adjustment_amount IS NOT NULL THEN adjustment_amount
ELSE 0 END)) ... WHERE currency = c GROUP BY user_id`. -/
def invoiceClientDebt (s : DBState) (uid : Nat) (c : Currency) : Int :=
  Int.natAbs
    (s.adjustments.foldl
      (fun acc e =>
        if e.userId == uid && e.currency == some c then acc + e.amount
        else acc)
      0)

/-- The spec's balance contract, written from the spec's words:
`currentBalance(clientId, currency) = -sum(amount for matching entries)`. -/
def specCurrentBalance (s : DBState) (uid : Nat) (c : Currency) : Int :=
  -(ledgerSum s.adjustments uid c)

/-! ## Order mutation reconciler (`checkItemsChanged`, `calculateNetDebtChange`) -/

/-- An item of a `PUT /orders/:id` request (`items` / `originalItems` fields).
The handler reads `item.productId || item.product_id`, `item.quantity`,
`item.price` and `item.name || item.product_name`; modelled as one field
each. -/
structure ReqItem where
  productId : Nat
  quantity : Int
  price : Int
  name : String
deriving DecidableEq, Repr

/-- JS `Map.set` on an association list: overwrite in place when the key is
present (keeping its position), append otherwise. -/
def mapSet {α : Type} (m : List (Nat × α)) (k : Nat) (v : α) : List (Nat × α) :=
  if m.any (fun p => p.1 == k) then
    m.map (fun p => if p.1 == k then (k, v) else p)
  else m ++ [(k, v)]

/-- JS `Map.get`. -/
def mapGet {α : Type} (m : List (Nat × α)) (k : Nat) : Option α :=
  (m.find? (fun p => p.1 == k)).map (fun p => p.2)

/-- `productId → quantity` map built by `checkItemsChanged`. -/
def buildQtyMap (items : List ReqItem) : List (Nat × Int) :=
  items.foldl (fun m it => mapSet m it.productId it.quantity) []

/-- `checkItemsChanged(originalItems, newItems)` from `orders.js`: compares
the two caller-supplied item lists as `productId → quantity` maps. -/
def checkItemsChanged (originalItems newItems : List ReqItem) : Bool :=
  if originalItems.length != newItems.length then true
  else
    let originalMap := buildQtyMap originalItems
    let newMap := buildQtyMap newItems
    if originalMap.any (fun p =>
        match mapGet newMap p.1 with
        | none => true
        | some newQty => newQty != p.2) then true
    else if newMap.any (fun p => (mapGet originalMap p.1).isNone) then true
    else false

/-- Value of the `productId → {quantity, price, name}` maps built by
`calculateNetDebtChange`. -/
structure ItemInfo where
  quantity : Int
  price : Int
  name : String
deriving DecidableEq, Repr

/-- Info map built by `calculateNetDebtChange`. -/
def buildInfoMap (items : List ReqItem) : List (Nat × ItemInfo) :=
  items.foldl
    (fun m it => mapSet m it.productId ⟨it.quantity, it.price, it.name⟩) []

/-- A classified change pushed onto `addedItems` / `removedItems` (product,
name, quantity, price). -/
structure ChangedItem where
  productId : Nat
  name : String
  quantity : Int
  price : Int
deriving DecidableEq, Repr

/-- A quantity change pushed onto `quantityChanges`; the JS object carries
either an `increase` or a `decrease` field. -/
structure QtyChange where
  productId : Nat
  name : String
  isIncrease : Bool
  delta : Int
  price : Int
deriving DecidableEq, Repr

/-- Result of `calculateNetDebtChange`. -/
structure NetChange where
  eurNetChange : Int
  mkdNetChange : Int
  eurNote : String
  mkdNote : String
deriving DecidableEq, Repr

/-- Added items and quantity increases: first loop over `newMap`. -/
def addedAndIncreases (originalMap newMap : List (Nat × ItemInfo)) :
    List ChangedItem × List QtyChange :=
  newMap.foldl
    (fun acc p =>
      match mapGet originalMap p.1 with
      | none =>
          (acc.1 ++ [⟨p.1, p.2.name, p.2.quantity, p.2.price⟩], acc.2)
      | some originalItem =>
          if originalItem.quantity < p.2.quantity then
            (acc.1,
             acc.2 ++ [⟨p.1, p.2.name, true,
                        p.2.quantity - originalItem.quantity, p.2.price⟩])
          else acc)
    ([], [])

/-- Removed items and quantity decreases: second loop over `originalMap`. -/
def removedAndDecreases (originalMap newMap : List (Nat × ItemInfo)) :
    List ChangedItem × List QtyChange :=
  originalMap.foldl
    (fun acc p =>
      match mapGet newMap p.1 with
      | none =>
          (acc.1 ++ [⟨p.1, p.2.name, p.2.quantity, p.2.price⟩], acc.2)
      | some newItem =>
          if newItem.quantity < p.2.quantity then
            (acc.1,
             acc.2 ++ [⟨p.1, p.2.name, false,
                        p.2.quantity - newItem.quantity, p.2.price⟩])
          else acc)
    ([], [])

/-- Per-currency accumulation of one routed line value:
`category === 'smartphones'` goes to the EUR accumulator, everything else
(including an unknown product, whose category lookup yields no row) to MKD. -/
def routeValue (cat : Nat → Option Category) (pid : Nat) (v : Int)
    (acc : Int × Int) : Int × Int :=
  if cat pid == some Category.smartphones then (acc.1 + v, acc.2)
  else (acc.1, acc.2 + v)

/-- JS `Array.join(sep)`. -/
def joinWith (sep : String) (l : List String) : String :=
  match l with
  | [] => ""
  | x :: xs => xs.foldl (fun a b => a ++ sep ++ b) x

/-- `added.map(i => name (xq)).join(', ')`. -/
def joinNames (l : List String) : String :=
  joinWith ", " l

/-- Render one added/removed item as in the note text. -/
def renderChanged (it : ChangedItem) : String :=
  it.name ++ " (x" ++ toString it.quantity ++ ")"

/-- Render one quantity change as in the note text. -/
def renderQty (it : QtyChange) : String :=
  if it.isIncrease then it.name ++ " (+" ++ toString it.delta ++ ")"
  else it.name ++ " (-" ++ toString it.delta ++ ")"

/-- Note text generated by `calculateNetDebtChange`. -/
def netChangeNote (orderId : Nat) (addedItems removedItems : List ChangedItem)
    (quantityChanges : List QtyChange) : String :=
  let oid := toString orderId
  if addedItems.length > 0 && removedItems.length == 0 &&
      quantityChanges.length == 0 then
    "Items increased in order #" ++ oid ++ ". Added: " ++
      joinNames (addedItems.map renderChanged)
  else if removedItems.length > 0 && addedItems.length == 0 &&
      quantityChanges.length == 0 then
    "Items reduced from order #" ++ oid ++ ". Removed: " ++
      joinNames (removedItems.map renderChanged)
  else if quantityChanges.length > 0 && addedItems.length == 0 &&
      removedItems.length == 0 then
    "Items quantity updated in order #" ++ oid ++ ". Quantity changes: " ++
      joinNames (quantityChanges.map renderQty)
  else if addedItems.length > 0 || removedItems.length > 0 ||
      quantityChanges.length > 0 then
    let changes :=
      (if addedItems.length > 0 then ["increased"] else []) ++
      (if removedItems.length > 0 then ["reduced"] else []) ++
      (if quantityChanges.length > 0 then ["quantity updated"] else [])
    let actionType := "Items " ++ joinWith " and " changes ++ " in order #" ++ oid
    let parts :=
      [actionType] ++
      (if addedItems.length > 0 then
        ["Increased: " ++ joinNames (addedItems.map renderChanged)] else []) ++
      (if removedItems.length > 0 then
        ["Reduced: " ++ joinNames (removedItems.map renderChanged)] else []) ++
      (if quantityChanges.length > 0 then
        ["Quantity changes: " ++ joinNames (quantityChanges.map renderQty)]
       else [])
    joinWith ". " parts
  else "Order items updated"

/-- `calculateNetDebtChange(client, originalItems, newItems, orderId, _)` from
`orders.js`. The product-category lookups the source performs with
`SELECT category FROM products WHERE id = $1` are abstracted as the lookup
function `cat`. Returns the EUR/MKD net changes (positive = debt increase)
and the generated note text (identical for both currencies). -/
def calculateNetDebtChange (cat : Nat → Option Category)
    (originalItems newItems : List ReqItem) (orderId : Nat) : NetChange :=
  let originalMap := buildInfoMap originalItems
  let newMap := buildInfoMap newItems
  let ai := addedAndIncreases originalMap newMap
  let rd := removedAndDecreases originalMap newMap
  let addedItems := ai.1
  let removedItems := rd.1
  let quantityChanges := ai.2 ++ rd.2
  let afterAdded :=
    addedItems.foldl
      (fun acc it => routeValue cat it.productId (it.quantity * it.price) acc)
      (0, 0)
  let afterRemoved :=
    removedItems.foldl
      (fun acc it =>
        routeValue cat it.productId (-(it.quantity * it.price)) acc)
      afterAdded
  let afterQty :=
    quantityChanges.foldl
      (fun acc it =>
        if it.isIncrease then
          routeValue cat it.productId (it.delta * it.price) acc
        else
          routeValue cat it.productId (-(it.delta * it.price)) acc)
      afterRemoved
  let note := netChangeNote orderId addedItems removedItems quantityChanges
  ⟨afterQty.1, afterQty.2, note, note⟩

/-! ## Stock reconciler and order mutations -/

/-- `SELECT category FROM products WHERE id = $1` (first matching row). -/
def categoryOf (ps : List Product) (pid : Nat) : Option Category :=
  (ps.find? (fun p => p.id == pid)).map (fun p => p.category)

/-- `UPDATE products SET stock_quantity = stock_quantity + d WHERE id = pid`. -/
def updateStockQty (ps : List Product) (pid : Nat) (d : Int) : List Product :=
  ps.map (fun p =>
    if p.id == pid then { p with stockQuantity := p.stockQuantity + d } else p)

/-- Restore stock for a list of stored order items (`+quantity` each). -/
def restoreStock (ps : List Product) : List OrderItem → List Product
  | [] => ps
  | it :: rest => restoreStock (updateStockQty ps it.productId it.quantity) rest

/-- `SELECT ... FROM orders WHERE id = $1` (first matching row). -/
def findOrder (s : DBState) (oid : Nat) : Option Order :=
  s.orders.find? (fun o => o.id == oid)

/-- `UPDATE orders SET status = $1 WHERE id = $2`. -/
def setOrderStatus (s : DBState) (oid : Nat) (st : OrderStatus) : DBState :=
  { s with orders := s.orders.map (fun o =>
      if o.id == oid then { o with status := st } else o) }

/-- Apply the optional `status` field of a `PUT /orders/:id` body. -/
def applyStatusOpt (s : DBState) (oid : Nat) : Option OrderStatus → DBState
  | none => s
  | some st => setOrderStatus s oid st

/-- `UPDATE orders SET total_amount = $1 WHERE id = $2`. -/
def setOrderTotal (s : DBState) (oid : Nat) (t : Int) : DBState :=
  { s with orders := s.orders.map (fun o =>
      if o.id == oid then { o with totalAmount := t } else o) }

/-- The new-items loop of `PUT /orders/:id`: for each request item, check the
product exists and has enough stock, decrement stock, and collect the new
`order_items` row (which stores the request's price). `none` models the
thrown error that rolls the transaction back. -/
def applyNewItems (oid : Nat) :
    List Product → List OrderItem → List ReqItem →
    Option (List Product × List OrderItem)
  | ps, acc, [] => some (ps, acc)
  | ps, acc, it :: rest =>
    match ps.find? (fun p => p.id == it.productId) with
    | none => none
    | some p =>
      if p.stockQuantity < it.quantity then none
      else
        applyNewItems oid (updateStockQty ps it.productId (-it.quantity))
          (acc ++ [⟨oid, it.productId, it.quantity, it.price⟩]) rest

/-- Body of a `PUT /orders/:id` request (after express-validator: an optional
status restricted to pending/completed, optional item lists, discount
preservation flags). -/
structure PutReq where
  status : Option OrderStatus
  items : Option (List ReqItem)
  originalItems : Option (List ReqItem)
  preserveDiscount : Bool
  originalDiscount : Int
deriving DecidableEq, Repr

/-- Build the ledger row inserted by the debt-adjustment step of
`PUT /orders/:id`. -/
def editAdjustment (uid : Nat) (amount : Int) (c : Currency) (note : String)
    (creator : Nat) (now : Int) : DebtAdjustment :=
  ⟨uid, amount, AdjustmentType.manual_reduction, some c, note, creator, now⟩

/-- `PUT /orders/:id` (admin order edit), translated step for step from
`orders.js`. `uid` is the authenticated admin (`req.user.id`), `now` the
insert timestamp, and `ledgerFail c` models the database raising an error on
the debt-adjustment INSERT for currency `c`. The handler catches that insert
error (`catch (debtError) { console.error(...) }`) and continues, but a
failed statement aborts the enclosing Postgres transaction, so the very next
statement (the total-recompute SELECT) throws, reaches the outer catch and
issues ROLLBACK: the whole mutation still fails. Every failure therefore
returns `Except.error` and discards the scratch state; only a run in which
no issued statement failed reaches COMMIT. -/
def putOrder (s : DBState) (oid : Nat) (r : PutReq) (uid : Nat) (now : Int)
    (ledgerFail : Currency → Bool) : Except String DBState :=
  match findOrder s oid with
  | none => Except.error "Order not found"
  | some _ =>
    let s1 := applyStatusOpt s oid r.status
    match r.items with
    | none => Except.ok s1
    | some its =>
      let orig := r.originalItems.getD []
      if checkItemsChanged orig its then
        let currentItems := s1.orderItems.filter (fun it => it.orderId == oid)
        let ps1 := restoreStock s1.products currentItems
        let clientId := (findOrder s1 oid).bind (fun o => o.clientId)
        let remaining := s1.orderItems.filter (fun it => !(it.orderId == oid))
        match applyNewItems oid ps1 [] its with
        | none => Except.error "Insufficient stock or product not found"
        | some (ps2, newRows) =>
          let n := calculateNetDebtChange (categoryOf ps2) orig its oid
          let eurAttempt := n.eurNetChange != 0 && clientId.isSome
          let mkdAttempt := n.mkdNetChange != 0 && clientId.isSome
          if (eurAttempt && ledgerFail Currency.EUR) ||
              (mkdAttempt && ledgerFail Currency.MKD) then
            Except.error "current transaction is aborted"
          else
            let led1 :=
              if eurAttempt then
                [editAdjustment (clientId.getD 0) (-n.eurNetChange)
                  Currency.EUR n.eurNote uid now]
              else []
            let led2 :=
              if mkdAttempt then
                [editAdjustment (clientId.getD 0) (-n.mkdNetChange)
                  Currency.MKD n.mkdNote uid now]
              else []
            let allItems := remaining ++ newRows
            let total :=
              ((allItems.filter (fun it => it.orderId == oid)).map
                (fun it => it.quantity * it.price)).sum
            let finalTotal :=
              if r.preserveDiscount && r.originalDiscount > 0 then
                max 0 (total - r.originalDiscount)
              else total
            let s2 : DBState :=
              { s1 with
                  products := ps2
                  orderItems := allItems
                  adjustments := s1.adjustments ++ led1 ++ led2 }
            Except.ok (setOrderTotal s2 oid finalTotal)
      else
        Except.ok (applyStatusOpt s1 oid r.status)

/-- `DELETE /orders/:id`: restore stock for every stored item of the order,
then delete the items and the order. -/
def deleteOrder (s : DBState) (oid : Nat) : Except String DBState :=
  match findOrder s oid with
  | none => Except.error "Order not found"
  | some _ =>
    let its := s.orderItems.filter (fun it => it.orderId == oid)
    Except.ok
      { s with
          products := restoreStock s.products its
          orderItems := s.orderItems.filter (fun it => !(it.orderId == oid))
          orders := s.orders.filter (fun o => !(o.id == oid)) }

/-- `PUT /orders/:id/status`: validation accepts only pending/completed, then
the status is written unconditionally (no transition guard). Both duplicate
route declarations in `orders.js` have this same behaviour. -/
def updateOrderStatus (s : DBState) (oid : Nat) (st : OrderStatus) :
    Except String DBState :=
  if !(st == OrderStatus.pending || st == OrderStatus.completed) then
    Except.error "Validation error"
  else
    match findOrder s oid with
    | none => Except.error "Order not found"
    | some _ => Except.ok (setOrderStatus s oid st)

/-! ## Order creation (`POST /orders`) -/

/-- An item of a `POST /orders` body (validated: positive ints). -/
structure PostItem where
  productId : Nat
  quantity : Int
deriving DecidableEq, Repr

/-- Body of a `POST /orders` request after validation, with the numeric
fields that default to 0 when absent. -/
structure PostReq where
  items : List PostItem
  guestName : Option String
  requestedClientId : Option Nat
  status : OrderStatus
  discount : Int
  totalMkd : Int
  totalEur : Int
deriving DecidableEq, Repr

/-- The authenticated caller (`req.user`). -/
structure AuthUser where
  id : Nat
  isAdmin : Bool
deriving DecidableEq, Repr

/-- A validated item collected by the creation loop (price and category
snapshotted from the product row). -/
structure VItem where
  productId : Nat
  quantity : Int
  price : Int
  name : String
  category : Category
deriving DecidableEq, Repr

/-- The validation loop of `POST /orders`: per item, the product must exist,
be enabled and have enough stock; accumulates `totalAmount`,
`eurPendingTotal`, `mkdPendingTotal` and the validated items. All reads see
the initial products table (no update happens during this loop). -/
def validateItems (ps : List Product) :
    List PostItem → List VItem × Int × Int × Int →
    Except String (List VItem × Int × Int × Int)
  | [], acc => Except.ok acc
  | it :: rest, (vs, ta, ep, mp) =>
    match ps.find? (fun p => p.id == it.productId) with
    | none => Except.error "Product not found"
    | some p =>
      if p.stockStatus == StockStatus.disabled then
        Except.error "Product is not available"
      else if p.stockQuantity < it.quantity then
        Except.error "Insufficient stock"
      else
        let lineTotal := p.price * it.quantity
        let ep' := if p.category == Category.smartphones then ep + lineTotal
                   else ep
        let mp' := if p.category == Category.smartphones then mp
                   else mp + lineTotal
        validateItems ps rest
          (vs ++ [⟨p.id, it.quantity, p.price, p.name, p.category⟩],
           ta + lineTotal, ep', mp')

/-- `SERIAL` id assignment for a new order. -/
def nextOrderId (s : DBState) : Nat :=
  (s.orders.foldl (fun m o => max m o.id) 0) + 1

/-- The creation loop that inserts `order_items` rows and decrements stock
for each validated item, in order. -/
def insertItemsAndDecrement (oid : Nat) :
    List Product × List OrderItem → List VItem → List Product × List OrderItem
  | acc, [] => acc
  | (ps, rows), v :: rest =>
    insertItemsAndDecrement oid
      (updateStockQty ps v.productId (-v.quantity),
       rows ++ [⟨oid, v.productId, v.quantity, v.price⟩]) rest

/-- Note text of the creation-time debt entry. -/
def createDebtNote (oid : Nat) (discount totalEur totalMkd : Int) : String :=
  let base := "Debt increase from pending order #" ++ toString oid
  if discount > 0 then
    let cur :=
      if totalEur > 0 && totalMkd == 0 then "EUR"
      else if totalMkd > 0 && totalEur == 0 then "MKD"
      else "MKD/EUR"
    base ++ " (Discount: " ++ toString discount ++ " " ++ cur ++ ")"
  else base

/-- `POST /orders` from `orders.js`: admin/guest client resolution, item
validation, order and item insertion with stock decrement, and the
debt-increase ledger entries written only for a pending non-guest order with
a positive per-currency final total (the request's discounted totals
`totalEur`/`totalMkd` override the computed item totals when positive).
Returns the new state and the new order id. -/
def postOrder (s : DBState) (r : PostReq) (caller : AuthUser) (now : Int) :
    Except String (DBState × Nat) :=
  if r.requestedClientId.isSome && !caller.isAdmin then
    Except.error "Only admins can assign orders to other clients"
  else if r.guestName.isSome && !caller.isAdmin then
    Except.error "Only admins can create guest orders"
  else
    let clientId : Option Nat :=
      if r.guestName.isSome then none
      else some (r.requestedClientId.getD caller.id)
    match validateItems s.products r.items ([], 0, 0, 0) with
    | Except.error e => Except.error e
    | Except.ok (vs, totalAmount, eurPendingTotal, mkdPendingTotal) =>
      let finalEurTotal :=
        if r.totalEur > 0 then r.totalEur else eurPendingTotal
      let finalMkdTotal :=
        if r.totalMkd > 0 then r.totalMkd else mkdPendingTotal
      let finalTotalAmount := finalEurTotal + finalMkdTotal
      let oid := nextOrderId s
      let newOrder : Order :=
        ⟨oid, clientId, r.guestName, r.status, r.status, finalTotalAmount,
         r.discount, totalAmount⟩
      let pr := insertItemsAndDecrement oid (s.products, []) vs
      let led :=
        if r.guestName.isNone && clientId.isSome &&
            r.status == OrderStatus.pending then
          let notes := createDebtNote oid r.discount r.totalEur r.totalMkd
          (if finalEurTotal > 0 then
            [⟨clientId.getD 0, -finalEurTotal, AdjustmentType.manual_reduction,
              some Currency.EUR, notes, caller.id, now⟩]
           else []) ++
          (if finalMkdTotal > 0 then
            [⟨clientId.getD 0, -finalMkdTotal, AdjustmentType.manual_reduction,
              some Currency.MKD, notes, caller.id, now⟩]
           else [])
        else []
      Except.ok
        ({ s with
            products := pr.1
            orders := s.orders ++ [newOrder]
            orderItems := s.orderItems ++ pr.2
            adjustments := s.adjustments ++ led }, oid)

/-! ## Debt-log history derivation (`GET /users/debt-logs`) -/

/-- Naive substring search standing in for JS `String.includes`. -/
def charListStartsWith : List Char → List Char → Bool
  | [], _ => true
  | _ :: _, [] => false
  | p :: ps, c :: cs => p == c && charListStartsWith ps cs

/-- Substring search over the character list. -/
def charListContains (pat : List Char) : List Char → Bool
  | [] => pat.isEmpty
  | c :: cs => charListStartsWith pat (c :: cs) || charListContains pat cs

/-- JS `notes.includes(pat)`. -/
def strContains (s pat : String) : Bool :=
  charListContains pat.data s.data

/-- The WHERE predicate of the debt-before query for an entry `E`: same
user, `currency = $2` (SQL three-valued equality: when either the row's
currency or the parameter `E.currency` is NULL the comparison is unknown and
the row is excluded), `created_at < E.created_at - 1 second`, and
`adjustment_type = 'manual_reduction'`. The handler subtracts a one-second
"buffer" from the entry's timestamp before comparing. -/
def beforeMatches (e entry : DebtAdjustment) : Bool :=
  entry.userId == e.userId &&
    (match e.currency, entry.currency with
     | some c1, some c2 => c1 == c2
     | _, _ => false) &&
    decide (entry.createdAt < e.createdAt - 1000) &&
    entry.adjType == AdjustmentType.manual_reduction

/-- `debtBefore = Math.abs(SUM(...))` for an entry of the debt log. -/
def debtBeforeOf (l : List DebtAdjustment) (e : DebtAdjustment) : Int :=
  Int.natAbs
    (l.foldl (fun a entry =>
      if beforeMatches e entry then a + entry.amount else a) 0)

/-- The notes substrings that make the handler treat an entry as a debt
increase. -/
def notesSayIncrease (n : String) : Bool :=
  strContains n "increased" || strContains n "Debt increase" ||
    strContains n "Added" || strContains n "Increased"

/-- The notes substrings that make the handler treat an entry as a debt
reduction. -/
def notesSayReduce (n : String) : Bool :=
  strContains n "reduced" || strContains n "removed" ||
    strContains n "Reduced"

/-- `debtAfter` as computed by the handler: re-apply `|amount|` with the sign
inferred from the notes text, falling back to adding the raw signed amount. -/
def debtAfterOf (l : List DebtAdjustment) (e : DebtAdjustment) : Int :=
  let debtBefore := debtBeforeOf l e
  let adjustmentAmount : Int := Int.natAbs e.amount
  if notesSayIncrease e.notes then debtBefore + adjustmentAmount
  else if notesSayReduce e.notes then debtBefore - adjustmentAmount
  else debtBefore + e.amount

/-- `debt_before` as reported (`Math.abs` for display). -/
def reportedDebtBefore (l : List DebtAdjustment) (e : DebtAdjustment) : Int :=
  Int.natAbs (debtBeforeOf l e)

/-- `debt_after` as reported (`Math.abs` for display). -/
def reportedDebtAfter (l : List DebtAdjustment) (e : DebtAdjustment) : Int :=
  Int.natAbs (debtAfterOf l e)

/-- The claim's "debt before" formula, written from the spec's words: the
negated sum of the amounts of all entries with `E`'s client and currency
whose `createdAt` is strictly earlier than `E.createdAt`. -/
def specDebtBefore (l : List DebtAdjustment) (e : DebtAdjustment) : Int :=
  -(((l.filter (fun entry =>
      entry.userId == e.userId && entry.currency == e.currency &&
        decide (entry.createdAt < e.createdAt))).map
      (fun entry => entry.amount)).sum)

/-! ## Revenue derivation (`GET /orders/revenue`, profile revenue) -/

/-- The hard-coded category-to-currency routing. -/
def categoryCurrency (cat : Category) : Currency :=
  if cat == Category.smartphones then Currency.EUR else Currency.MKD

/-- Contribution of one `order_items` row to the revenue of currency `c`:
the JOIN with `products` drops rows whose product is missing, and the CASE
routes smartphone line values to EUR and everything else to MKD. -/
def lineRevenue (ps : List Product) (it : OrderItem) (c : Currency) : Int :=
  match ps.find? (fun p => p.id == it.productId) with
  | none => 0
  | some p =>
      if categoryCurrency p.category == c then it.quantity * it.price else 0

/-- `GET /orders/revenue`: per-currency revenue over all completed orders,
summed row by row over `order_items` joined with `orders` and `products`. -/
def revenueAll (s : DBState) (c : Currency) : Int :=
  s.orderItems.foldl
    (fun a it =>
      match s.orders.find? (fun o => o.id == it.orderId) with
      | none => a
      | some o =>
          if o.status == OrderStatus.completed then a + lineRevenue s.products it c
          else a)
    0

/-- Per-client revenue of `GET /users/:id/profile` (same query restricted to
`o.client_id = uid`). -/
def profileRevenue (s : DBState) (uid : Nat) (c : Currency) : Int :=
  s.orderItems.foldl
    (fun a it =>
      match s.orders.find? (fun o => o.id == it.orderId) with
      | none => a
      | some o =>
          if o.status == OrderStatus.completed && o.clientId == some uid then
            a + lineRevenue s.products it c
          else a)
    0

/-- The claim's revenue formula, written from the spec's words: the summed
charged totals (`total_amount`) of all orders with status `completed`. -/
def specChargedRevenue (s : DBState) : Int :=
  ((s.orders.filter (fun o => o.status == OrderStatus.completed)).map
    (fun o => o.totalAmount)).sum

/-- Per-order item total in currency `c` (grouping of the revenue rows by
order). -/
def orderCurrencyTotal (s : DBState) (oid : Nat) (c : Currency) : Int :=
  ((s.orderItems.filter (fun it => it.orderId == oid)).map
    (fun it => lineRevenue s.products it c)).sum

/-- Sum of quantities a list of stored order items records for one product. -/
def itemsQtyFor (its : List OrderItem) (pid : Nat) : Int :=
  ((its.filter (fun it => it.productId == pid)).map
    (fun it => it.quantity)).sum

/-- Quantity an order's stored items record for one product. -/
def orderQtyFor (s : DBState) (oid pid : Nat) : Int :=
  itemsQtyFor (s.orderItems.filter (fun it => it.orderId == oid)) pid

/-- The ledger rows the edit path appends when no insert fails: one per
currency with a non-zero net change, provided the order belongs to a
registered client. -/
def editLedgerEntries (n : NetChange) (cid : Option Nat) (uid : Nat)
    (now : Int) : List DebtAdjustment :=
  (if n.eurNetChange != 0 && cid.isSome then
    [editAdjustment (cid.getD 0) (-n.eurNetChange) Currency.EUR n.eurNote
      uid now]
   else []) ++
  (if n.mkdNetChange != 0 && cid.isSome then
    [editAdjustment (cid.getD 0) (-n.mkdNetChange) Currency.MKD n.mkdNote
      uid now]
   else [])

/-! ## Concrete example states used by counterexamples and witnesses -/

/-- Accessory product A, price 10 MKD. -/
def exProdA : Product := ⟨1, "A", 10, 100, StockStatus.enabled, Category.accessories⟩

/-- Accessory product B, price 5 MKD. -/
def exProdB : Product := ⟨2, "B", 5, 100, StockStatus.enabled, Category.accessories⟩

/-- Accessory product C, price 20 MKD. -/
def exProdC : Product := ⟨3, "C", 20, 100, StockStatus.enabled, Category.accessories⟩

/-- Smartphone product, price 100 EUR. -/
def exProdS : Product := ⟨4, "S", 100, 100, StockStatus.enabled, Category.smartphones⟩

/-- The spec's net-change scenario: old items {A:2, B:1}. -/
def exOrig3 : List ReqItem := [⟨1, 2, 10, "A"⟩, ⟨2, 1, 5, "B"⟩]

/-- The spec's net-change scenario: new items {A:3, C:1}. -/
def exNew3 : List ReqItem := [⟨1, 3, 10, "A"⟩, ⟨3, 1, 20, "C"⟩]

/-- State for the net-change scenario: client order #1 holding {A:2, B:1}. -/
def exS3 : DBState :=
  { products := [exProdA, exProdB, exProdC]
    orders := [⟨1, some 7, none, OrderStatus.pending, OrderStatus.pending, 25, 0, 25⟩]
    orderItems := [⟨1, 1, 2, 10⟩, ⟨1, 2, 1, 5⟩]
    adjustments := [] }

/-- Edit request for the net-change scenario. -/
def exR3 : PutReq := ⟨none, some exNew3, some exOrig3, false, 0⟩

/-- The state committed by the net-change scenario edit. -/
def exS3res : DBState :=
  ((putOrder exS3 1 exR3 9 5000 (fun _ => false)).toOption).getD exS3

/-- State whose stored items for order #1 (A:1) differ from the request's
`originalItems` (A:2). -/
def exS4 : DBState :=
  { products := [exProdA]
    orders := [⟨1, some 7, none, OrderStatus.pending, OrderStatus.pending, 10, 0, 10⟩]
    orderItems := [⟨1, 1, 1, 10⟩]
    adjustments := [] }

/-- Edit request whose `items` equal the stored rows of order #1 in `exS4`
but whose `originalItems` differ. -/
def exR4 : PutReq :=
  ⟨none, some [⟨1, 1, 10, "A"⟩], some [⟨1, 2, 10, "A"⟩], false, 0⟩

/-- State with one zero-priced enabled accessory. -/
def exS5 : DBState :=
  { products := [⟨1, "Z", 0, 5, StockStatus.enabled, Category.accessories⟩]
    orders := [], orderItems := [], adjustments := [] }

/-- Pending non-guest creation request for one unit of the zero-priced
product, assigned to client 7. -/
def exR5 : PostReq := ⟨[⟨1, 1⟩], none, some 7, OrderStatus.pending, 0, 0, 0⟩

/-- State for the C2 witness: client order #1, currently empty item set. -/
def exS2 : DBState :=
  { products := [exProdA, exProdS]
    orders := [⟨1, some 7, none, OrderStatus.pending, OrderStatus.pending, 0, 0, 0⟩]
    orderItems := []
    adjustments := [] }

/-- MKD-only edit request (adds accessory A), so the EUR insert is never
attempted. -/
def exR2 : PutReq := ⟨none, some [⟨1, 1, 10, "A"⟩], some [], false, 0⟩

/-- The state committed by the `exR2` edit when the database would fail any
EUR ledger insert. -/
def exS2res : DBState :=
  ((putOrder exS2 1 exR2 9 5000 (fun c => c == Currency.EUR)).toOption).getD exS2

/-- Ledger with a single positive (credit) EUR entry of +40 for client 1. -/
def exS1 : DBState :=
  { products := [], orders := [], orderItems := []
    adjustments := [⟨1, 40, AdjustmentType.manual_reduction, some Currency.EUR,
      "Manual debt reduction", 2, 0⟩] }

/-- State with a completed client order #1. -/
def exS8 : DBState :=
  { products := []
    orders := [⟨1, some 7, none, OrderStatus.completed, OrderStatus.pending, 0, 0, 0⟩]
    orderItems := [], adjustments := [] }

/-- A prior ledger entry of +40 EUR at time 0. -/
def exE0 : DebtAdjustment :=
  ⟨1, 40, AdjustmentType.manual_reduction, some Currency.EUR, "x", 2, 0⟩

/-- The debt-log entry under inspection: −10 EUR at time 5000 whose notes
mark it as a debt increase. -/
def exE1 : DebtAdjustment :=
  ⟨1, -10, AdjustmentType.manual_reduction, some Currency.EUR,
    "Debt increase from pending order #3", 2, 5000⟩

/-- Ledger for the debt-log scenario. -/
def exL9 : List DebtAdjustment := [exE0, exE1]

/-- State with a discounted completed MKD order: item total 100, charged
total 80. -/
def exS10 : DBState :=
  { products := [⟨1, "M", 100, 10, StockStatus.enabled, Category.accessories⟩]
    orders := [⟨1, some 7, none, OrderStatus.completed, OrderStatus.pending, 80, 20, 100⟩]
    orderItems := [⟨1, 1, 1, 100⟩]
    adjustments := [] }

/-- State for the deletion witness: order #1 holds qty 2 of product A and
qty 3 of product B; product C is not referenced. -/
def exS6 : DBState :=
  { products := [exProdA, exProdB, exProdC]
    orders := [⟨1, some 7, none, OrderStatus.pending, OrderStatus.pending, 25, 0, 25⟩]
    orderItems := [⟨1, 1, 2, 10⟩, ⟨1, 2, 3, 5⟩]
    adjustments := [] }

/-- The state left by deleting order #1 from `exS6`. -/
def exS6res : DBState := ((deleteOrder exS6 1).toOption).getD exS6

/-- Variant of `exS3` whose stored item rows for order #1 are entirely
different (C:5). -/
def exS7b : DBState :=
  { products := [exProdA, exProdB, exProdC]
    orders := [⟨1, some 7, none, OrderStatus.pending, OrderStatus.pending, 25, 0, 25⟩]
    orderItems := [⟨1, 3, 5, 20⟩]
    adjustments := [] }

/-- The state committed by running the `exR3` edit on `exS7b`. -/
def exS7bres : DBState :=
  ((putOrder exS7b 1 exR3 9 5000 (fun _ => false)).toOption).getD exS7b

/-- Ledger with one debt-increase entry of −100 EUR for client 1 (so the
entry sum is non-positive). -/
def exS1b : DBState :=
  { products := [], orders := [], orderItems := []
    adjustments := [⟨1, -100, AdjustmentType.manual_reduction,
      some Currency.EUR, "Debt increase from pending order #1", 2, 0⟩] }

/-- Pending client creation request: two units of product A (10 MKD). -/
def exR5b : PostReq := ⟨[⟨1, 2⟩], none, some 7, OrderStatus.pending, 0, 0, 0⟩

/-- The state committed by creating the `exR5b` order in `exS2`. -/
def exS5bres : DBState :=
  (((postOrder exS2 exR5b ⟨1, true⟩ 0).toOption).map Prod.fst).getD exS2

/-! ## Supporting lemmas -/

theorem applyStatusOpt_products (s : DBState) (oid : Nat)
    (st : Option OrderStatus) : (applyStatusOpt s oid st).products = s.products := by
  cases st <;> rfl

theorem applyStatusOpt_orderItems (s : DBState) (oid : Nat)
    (st : Option OrderStatus) :
    (applyStatusOpt s oid st).orderItems = s.orderItems := by
  cases st <;> rfl

theorem applyStatusOpt_adjustments (s : DBState) (oid : Nat)
    (st : Option OrderStatus) :
    (applyStatusOpt s oid st).adjustments = s.adjustments := by
  cases st <;> rfl

theorem setOrderTotal_adjustments (s : DBState) (oid : Nat) (t : Int) :
    (setOrderTotal s oid t).adjustments = s.adjustments := rfl

theorem setOrderTotal_products (s : DBState) (oid : Nat) (t : Int) :
    (setOrderTotal s oid t).products = s.products := rfl

/-- `find?` commutes with mapping by an id-preserving function. -/
theorem find?_map_of_id_eq (g : Order → Order)
    (hid : ∀ o, (g o).id = o.id) (l : List Order) (x : Nat) :
    (l.map g).find? (fun o => o.id == x) =
      (l.find? (fun o => o.id == x)).map g := by
  induction l with
  | nil => rfl
  | cons o os ih =>
      simp only [List.map_cons, List.find?_cons]
      rw [hid o]
      cases h : (o.id == x) <;> simp [ih]

/-- Looking an order up after a status write returns the same row with only
the status possibly changed. -/
theorem findOrder_setOrderStatus (s : DBState) (oid : Nat) (st : OrderStatus)
    (x : Nat) :
    findOrder (setOrderStatus s oid st) x =
      (findOrder s x).map
        (fun o => if o.id == oid then { o with status := st } else o) := by
  unfold findOrder setOrderStatus
  exact find?_map_of_id_eq _
    (fun o => by
      show (if o.id == oid then { o with status := st } else o).id = o.id
      split <;> rfl)
    s.orders x

/-- The client id read back inside the transaction is unaffected by the
status write. -/
theorem findOrder_applyStatusOpt_clientId (s : DBState) (oid : Nat)
    (st : Option OrderStatus) (x : Nat) :
    ((findOrder (applyStatusOpt s oid st) x).bind (fun o => o.clientId)) =
      ((findOrder s x).bind (fun o => o.clientId)) := by
  cases st with
  | none => rfl
  | some st =>
      rw [applyStatusOpt, findOrder_setOrderStatus]
      cases findOrder s x with
      | none => rfl
      | some o =>
          show (if o.id == oid then { o with status := st } else o).clientId =
            o.clientId
          split <;> rfl

/-- Generic fold-in of a guarded sum: the row-by-row aggregation of an SQL
`SUM ... WHERE p` equals the sum over the filtered, projected list. -/
theorem foldl_add_if {α : Type} (p : α → Bool) (f : α → Int) :
    ∀ (l : List α) (a : Int),
      l.foldl (fun acc x => if p x then acc + f x else acc) a =
        a + ((l.filter p).map f).sum := by
  intro l
  induction l with
  | nil => intro a; simp
  | cons x xs ih =>
      intro a
      simp only [List.foldl_cons, List.filter_cons]
      cases h : p x <;> simp [ih, add_assoc]

/-- Unguarded version. -/
theorem foldl_add {α : Type} (f : α → Int) :
    ∀ (l : List α) (a : Int),
      l.foldl (fun acc x => acc + f x) a = a + (l.map f).sum := by
  intro l
  induction l with
  | nil => intro a; simp
  | cons x xs ih => intro a; simp [ih, add_assoc]

theorem ledgerSum_nil (uid : Nat) (c : Currency) : ledgerSum [] uid c = 0 := rfl

theorem ledgerSum_cons (e : DebtAdjustment) (l : List DebtAdjustment)
    (uid : Nat) (c : Currency) :
    ledgerSum (e :: l) uid c =
      (if e.userId == uid && e.currency == some c then e.amount else 0) +
        ledgerSum l uid c := by
  unfold ledgerSum
  rw [List.filter_cons]
  split <;> simp

/-- The grouped profile aggregation, started from any accumulator, adds the
per-currency ledger sums. -/
theorem profileSums_foldl (uid : Nat) :
    ∀ (l : List DebtAdjustment) (a : Int × Int),
      l.foldl
        (fun acc e =>
          if e.userId == uid then
            match e.currency with
            | some Currency.EUR => (acc.1 + e.amount, acc.2)
            | some Currency.MKD => (acc.1, acc.2 + e.amount)
            | none => acc
          else acc)
        a =
      (a.1 + ledgerSum l uid Currency.EUR, a.2 + ledgerSum l uid Currency.MKD) := by
  intro l
  induction l with
  | nil => intro a; simp [ledgerSum_nil]
  | cons e es ih =>
      intro a
      rw [List.foldl_cons, ih, ledgerSum_cons, ledgerSum_cons]
      cases hu : (e.userId == uid) with
      | false => simp [hu]
      | true =>
          cases hc : e.currency with
          | none => simp [hu, hc]
          | some c =>
              cases c <;>
                simp [hu, hc, add_assoc, add_comm, add_left_comm]

/-- `find?` on products commutes with mapping by an id-preserving function. -/
theorem find?_prodMap_of_id_eq (g : Product → Product)
    (hid : ∀ p, (g p).id = p.id) (l : List Product) (x : Nat) :
    (l.map g).find? (fun p => p.id == x) =
      (l.find? (fun p => p.id == x)).map g := by
  induction l with
  | nil => rfl
  | cons p ps ih =>
      simp only [List.map_cons, List.find?_cons]
      rw [hid p]
      cases h : (p.id == x) <;> simp [ih]

/-- Mapping products by an id- and category-preserving function does not
change category lookups. -/
theorem categoryOf_map_preserve (g : Product → Product)
    (hid : ∀ p, (g p).id = p.id) (hcat : ∀ p, (g p).category = p.category)
    (ps : List Product) : categoryOf (ps.map g) = categoryOf ps := by
  funext x
  unfold categoryOf
  rw [find?_prodMap_of_id_eq g hid]
  cases ps.find? (fun p => p.id == x) with
  | none => rfl
  | some p =>
      show some (g p).category = some p.category
      rw [hcat]

/-- Stock updates keep every product's id and category. -/
theorem categoryOf_updateStockQty (ps : List Product) (pid : Nat) (d : Int) :
    categoryOf (updateStockQty ps pid d) = categoryOf ps := by
  unfold updateStockQty
  exact categoryOf_map_preserve _
    (fun p => by
      show (if p.id == pid then
        { p with stockQuantity := p.stockQuantity + d } else p).id = p.id
      split <;> rfl)
    (fun p => by
      show (if p.id == pid then
        { p with stockQuantity := p.stockQuantity + d } else p).category =
        p.category
      split <;> rfl) ps

/-- Restoring stock keeps every product's category. -/
theorem categoryOf_restoreStock :
    ∀ (its : List OrderItem) (ps : List Product),
      categoryOf (restoreStock ps its) = categoryOf ps := by
  intro its
  induction its with
  | nil => intro ps; rfl
  | cons it rest ih =>
      intro ps
      rw [restoreStock, ih, categoryOf_updateStockQty]

/-- The re-validate-and-decrement loop keeps every product's category. -/
theorem categoryOf_applyNewItems (oid : Nat) :
    ∀ (its : List ReqItem) (ps : List Product) (acc : List OrderItem)
      (ps2 : List Product) (rows : List OrderItem),
      applyNewItems oid ps acc its = some (ps2, rows) →
      categoryOf ps2 = categoryOf ps := by
  intro its
  induction its with
  | nil =>
      intro ps acc ps2 rows h
      simp only [applyNewItems] at h
      cases h
      rfl
  | cons it rest ih =>
      intro ps acc ps2 rows h
      simp only [applyNewItems] at h
      cases hf : ps.find? (fun p => p.id == it.productId) with
      | none => rw [hf] at h; cases h
      | some p =>
          rw [hf] at h
          by_cases hs : p.stockQuantity < it.quantity
          · simp [hs] at h
          · simp only [hs, if_false, if_neg hs] at h
            rw [ih _ _ _ _ h, categoryOf_updateStockQty]

/-- Inversion of the committed item-replacing path of `putOrder`: a
successful run with a changed item set restored and re-applied stock via
`applyNewItems` and appended exactly the per-currency net-change entries. -/
theorem putOrder_changed_spec (s : DBState) (oid : Nat) (r : PutReq)
    (uid : Nat) (now : Int) (f : Currency → Bool) (s' : DBState) (o : Order)
    (its : List ReqItem)
    (hfind : findOrder s oid = some o)
    (hits : r.items = some its)
    (hch : checkItemsChanged (r.originalItems.getD []) its = true)
    (hok : putOrder s oid r uid now f = Except.ok s') :
    ∃ ps2 rows,
      applyNewItems oid
        (restoreStock s.products
          (s.orderItems.filter (fun it => it.orderId == oid))) [] its =
        some (ps2, rows) ∧
      s'.products = ps2 ∧
      s'.orderItems =
        (s.orderItems.filter (fun it => !(it.orderId == oid))) ++ rows ∧
      s'.adjustments = s.adjustments ++
        editLedgerEntries
          (calculateNetDebtChange (categoryOf s.products)
            (r.originalItems.getD []) its oid) o.clientId uid now := by
  unfold putOrder at hok
  rw [hfind] at hok
  simp only [applyStatusOpt_products, applyStatusOpt_orderItems,
    applyStatusOpt_adjustments, findOrder_applyStatusOpt_clientId, hits, hch,
    if_true, hfind, Option.some_bind] at hok
  cases happ : applyNewItems oid
      (restoreStock s.products
        (s.orderItems.filter (fun it => it.orderId == oid))) [] its with
  | none => rw [happ] at hok; simp at hok
  | some pr =>
      obtain ⟨ps2, rows⟩ := pr
      rw [happ] at hok
      dsimp only at hok
      have hcat : categoryOf ps2 = categoryOf s.products := by
        rw [categoryOf_applyNewItems oid its _ [] ps2 rows happ,
          categoryOf_restoreStock]
      refine ⟨ps2, rows, rfl, ?_⟩
      rw [hcat] at hok
      split at hok
      · cases hok
      · cases hok
        refine ⟨rfl, rfl, ?_⟩
        show (s.adjustments ++ _) ++ _ =
          s.adjustments ++ editLedgerEntries _ _ _ _
        rw [List.append_assoc]
        rfl

/-- The no-op branch of `putOrder`: when the caller-supplied item maps are
equal, the handler commits immediately with only the status writes. -/
theorem putOrder_noop_spec (s : DBState) (oid : Nat) (r : PutReq) (uid : Nat)
    (now : Int) (f : Currency → Bool) (o : Order) (its : List ReqItem)
    (hfind : findOrder s oid = some o)
    (hits : r.items = some its)
    (hch : checkItemsChanged (r.originalItems.getD []) its = false) :
    putOrder s oid r uid now f =
      Except.ok (applyStatusOpt (applyStatusOpt s oid r.status) oid r.status) := by
  unfold putOrder
  rw [hfind]
  simp only [hits, hch, Bool.false_eq_true, if_false]

/-- The items-less branch of `putOrder`: only the status write happens. -/
theorem putOrder_noItems_spec (s : DBState) (oid : Nat) (r : PutReq)
    (uid : Nat) (now : Int) (f : Currency → Bool) (o : Order)
    (hfind : findOrder s oid = some o)
    (hits : r.items = none) :
    putOrder s oid r uid now f = Except.ok (applyStatusOpt s oid r.status) := by
  unfold putOrder
  rw [hfind]
  simp only [hits]

theorem find?_eq_some_pred (o : Order) (s : DBState) (oid : Nat)
    (hfind : findOrder s oid = some o) : (o.id == oid) = true := by
  unfold findOrder at hfind
  have h := List.find?_some hfind
  simpa using h

/-- Status lookup after writing the same status twice. -/
theorem findOrder_double_status (s : DBState) (oid : Nat) (st : OrderStatus)
    (o : Order) (hfind : findOrder s oid = some o) :
    (findOrder (setOrderStatus (setOrderStatus s oid st) oid st) oid).map
      (fun o => o.status) = some st := by
  have ho : o.id = oid := by
    simpa using find?_eq_some_pred o s oid hfind
  rw [findOrder_setOrderStatus, findOrder_setOrderStatus, hfind]
  simp [ho]

/-- C3: on a successful item-changing edit of a registered client's order
(with no database insert failing), the reconciler appends exactly one ledger
entry per currency with a non-zero net change, storing `amount = -netChange`,
and no entry for a currency whose net change is zero. -/
theorem C3_edit_net_ledger (s : DBState) (oid : Nat) (r : PutReq) (uid : Nat)
    (now : Int) (s' : DBState) (o : Order) (cid : Nat) (its : List ReqItem)
    (hfind : findOrder s oid = some o)
    (hcid : o.clientId = some cid)
    (hits : r.items = some its)
    (hch : checkItemsChanged (r.originalItems.getD []) its = true)
    (hok : putOrder s oid r uid now (fun _ => false) = Except.ok s') :
    s'.adjustments = s.adjustments ++
      ((if (calculateNetDebtChange (categoryOf s.products)
            (r.originalItems.getD []) its oid).eurNetChange ≠ 0 then
          [editAdjustment cid
            (-(calculateNetDebtChange (categoryOf s.products)
                (r.originalItems.getD []) its oid).eurNetChange)
            Currency.EUR
            (calculateNetDebtChange (categoryOf s.products)
              (r.originalItems.getD []) its oid).eurNote uid now]
        else []) ++
       (if (calculateNetDebtChange (categoryOf s.products)
            (r.originalItems.getD []) its oid).mkdNetChange ≠ 0 then
          [editAdjustment cid
            (-(calculateNetDebtChange (categoryOf s.products)
                (r.originalItems.getD []) its oid).mkdNetChange)
            Currency.MKD
            (calculateNetDebtChange (categoryOf s.products)
              (r.originalItems.getD []) its oid).mkdNote uid now]
        else [])) := by
  obtain ⟨ps2, rows, happ, hprod, hitems, hadj⟩ :=
    putOrder_changed_spec s oid r uid now _ s' o its hfind hits hch hok
  rw [hadj, hcid]
  congr 1
  simp only [editLedgerEntries, Option.isSome_some, Bool.and_true,
    Option.getD_some, bne_iff_ne, ne_eq]

/-- Witness for C3: the spec's scenario — old items {A:2, B:1}, new items
{A:3, C:1}, A at 10 MKD, B at 5 MKD, C at 20 MKD, all non-smartphone —
appends exactly one MKD ledger entry with amount −25 for client 7. -/
theorem C3_edit_net_ledger_witness :
    exS3res.adjustments.map
      (fun e => (e.userId, e.amount, e.currency, e.adjType)) =
      [(7, -25, some Currency.MKD, AdjustmentType.manual_reduction)] := by
  have h := C3_edit_net_ledger exS3 1 exR3 9 5000 exS3res
    ⟨1, some 7, none, OrderStatus.pending, OrderStatus.pending, 25, 0, 25⟩
    7 exNew3 (by rfl) (by rfl) (by rfl) (by rfl) (by rfl)
  rw [h]
  decide

/-- Counterexample for C4: an edit request whose `items` are identical (as a
product-to-quantity map) to the order's stored item rows still appends a
ledger entry, because the no-op check compares against the caller-supplied
`originalItems` instead of the stored rows. -/
theorem C4_counterexample :
    exR4.items = some [⟨1, 1, 10, "A"⟩] ∧
    exS4.orderItems = [⟨1, 1, 1, 10⟩] ∧
    (putOrder exS4 1 exR4 9 5000 (fun _ => false)).map
      (fun t => t.adjustments.length) = Except.ok 1 :=
  ⟨rfl, rfl, rfl⟩

/-- C4 (amended): an order-edit request whose `items` equal the
caller-supplied `originalItems` as product-to-quantity maps (any order) is a
no-op on ledger, stock and stored items, while a status sent in the same
request is still applied. -/
theorem C4_noop_edit (s : DBState) (oid : Nat) (r : PutReq) (uid : Nat)
    (now : Int) (f : Currency → Bool) (o : Order) (its : List ReqItem)
    (hfind : findOrder s oid = some o)
    (hits : r.items = some its)
    (hch : checkItemsChanged (r.originalItems.getD []) its = false) :
    ∃ s', putOrder s oid r uid now f = Except.ok s' ∧
      s'.adjustments = s.adjustments ∧
      s'.products = s.products ∧
      s'.orderItems = s.orderItems ∧
      (∀ st, r.status = some st →
        (findOrder s' oid).map (fun o => o.status) = some st) := by
  refine ⟨applyStatusOpt (applyStatusOpt s oid r.status) oid r.status,
    putOrder_noop_spec s oid r uid now f o its hfind hits hch, ?_, ?_, ?_, ?_⟩
  · rw [applyStatusOpt_adjustments, applyStatusOpt_adjustments]
  · rw [applyStatusOpt_products, applyStatusOpt_products]
  · rw [applyStatusOpt_orderItems, applyStatusOpt_orderItems]
  · intro st hst
    rw [hst]
    exact findOrder_double_status s oid st o hfind

/-- Witness for C4 (amended): sending order #1 of the net-change state an
edit whose `items` equal its `originalItems` (listed in a different order)
together with a status change leaves ledger, stock and items untouched and
applies the status. -/
theorem C4_noop_edit_witness :
    ∃ s', putOrder exS3 1
        ⟨some OrderStatus.completed, some [⟨2, 1, 5, "B"⟩, ⟨1, 2, 10, "A"⟩],
          some exOrig3, false, 0⟩ 9 5000 (fun _ => false) = Except.ok s' ∧
      s'.adjustments = exS3.adjustments ∧
      s'.products = exS3.products ∧
      s'.orderItems = exS3.orderItems ∧
      (∀ st, (some OrderStatus.completed : Option OrderStatus) = some st →
        (findOrder s' 1).map (fun o => o.status) = some st) :=
  C4_noop_edit exS3 1
    ⟨some OrderStatus.completed, some [⟨2, 1, 5, "B"⟩, ⟨1, 2, 10, "A"⟩],
      some exOrig3, false, 0⟩ 9 5000 (fun _ => false)
    ⟨1, some 7, none, OrderStatus.pending, OrderStatus.pending, 25, 0, 25⟩
    [⟨2, 1, 5, "B"⟩, ⟨1, 2, 10, "A"⟩] (by rfl) (by rfl) (by rfl)

/-- Counterexample for C8: order #1 is `completed`, yet a documented status
-update request carrying `pending` moves it back to `pending`. -/
theorem C8_counterexample :
    (findOrder exS8 1).map (fun o => o.status) = some OrderStatus.completed ∧
    (updateOrderStatus exS8 1 OrderStatus.pending).map
      (fun t => (findOrder t 1).map (fun o => o.status)) =
      Except.ok (some OrderStatus.pending) :=
  ⟨rfl, rfl⟩

/-- C8 (amended): the status-update endpoint accepts either of
`pending`/`completed` and writes the requested status unconditionally,
regardless of the order's current status — so `completed → pending` is
reachable; only values outside the validated set are rejected. -/
theorem C8_status_write (s : DBState) (oid : Nat) (st : OrderStatus)
    (o : Order)
    (hfind : findOrder s oid = some o)
    (hvalid : st = OrderStatus.pending ∨ st = OrderStatus.completed) :
    ∃ s', updateOrderStatus s oid st = Except.ok s' ∧
      (findOrder s' oid).map (fun o => o.status) = some st := by
  have hguard : (st == OrderStatus.pending || st == OrderStatus.completed) = true := by
    rcases hvalid with h | h <;> rw [h] <;> rfl
  refine ⟨setOrderStatus s oid st, ?_, ?_⟩
  · unfold updateOrderStatus
    rw [hguard, hfind]
    rfl
  · have ho : o.id = oid := by
      simpa using find?_eq_some_pred o s oid hfind
    rw [findOrder_setOrderStatus, hfind]
    simp [ho]

/-- Witness for C8 (amended): applied to the completed order #1 with the
requested status `pending`. -/
theorem C8_status_write_witness :
    ∃ s', updateOrderStatus exS8 1 OrderStatus.pending = Except.ok s' ∧
      (findOrder s' 1).map (fun o => o.status) = some OrderStatus.pending :=
  C8_status_write exS8 1 OrderStatus.pending
    ⟨1, some 7, none, OrderStatus.completed, OrderStatus.pending, 0, 0, 0⟩
    (by rfl) (Or.inl rfl)

/-- The invoice debt fold equals the (client, currency) ledger sum. -/
theorem invoice_fold_eq_ledgerSum (l : List DebtAdjustment) (uid : Nat)
    (c : Currency) :
    l.foldl
      (fun acc e =>
        if e.userId == uid && e.currency == some c then acc + e.amount
        else acc)
      0 = ledgerSum l uid c := by
  rw [foldl_add_if (fun e => e.userId == uid && e.currency == some c)
    (fun e => e.amount) l 0, zero_add]
  rfl

/-- Counterexample for C1: with a single ledger entry of +40 EUR for client
1 (a pure credit), the invoice's debt figure is 40, not the −40 the claimed
`-sum` contract requires. -/
theorem C1_counterexample :
    invoiceClientDebt exS1 1 Currency.EUR ≠
      specCurrentBalance exS1 1 Currency.EUR := by
  decide

/-- C1 (amended): on every state, the user-profile financial summary reports
`-sum(amount)` per (client, currency) and the invoice reports
`|sum(amount)|`; the invoice figure agrees with `-sum(amount)` whenever the
entry sum is non-positive (the client owes), and only then — for a client in
credit it shows the positive magnitude instead of the negative balance. -/
theorem C1_balance_reads (s : DBState) (uid : Nat) (c : Currency) :
    profileDebt s uid c = specCurrentBalance s uid c ∧
    invoiceClientDebt s uid c =
      Int.natAbs (ledgerSum s.adjustments uid c) ∧
    (ledgerSum s.adjustments uid c ≤ 0 →
      invoiceClientDebt s uid c = specCurrentBalance s uid c) := by
  have hprof : profileDebt s uid c = specCurrentBalance s uid c := by
    cases c <;>
      · unfold profileDebt profileSums specCurrentBalance
        rw [profileSums_foldl uid s.adjustments (0, 0)]
        simp
  have hinv : invoiceClientDebt s uid c =
      Int.natAbs (ledgerSum s.adjustments uid c) := by
    unfold invoiceClientDebt
    rw [invoice_fold_eq_ledgerSum]
  refine ⟨hprof, hinv, fun h => ?_⟩
  rw [hinv]
  unfold specCurrentBalance
  omega

/-- Witness for C1 (amended): a client with one −100 EUR debt-increase entry
has entry sum −100 ≤ 0; profile and invoice both report 100. -/
theorem C1_balance_reads_witness :
    profileDebt exS1b 1 Currency.EUR = specCurrentBalance exS1b 1 Currency.EUR ∧
    invoiceClientDebt exS1b 1 Currency.EUR =
      Int.natAbs (ledgerSum exS1b.adjustments 1 Currency.EUR) ∧
    invoiceClientDebt exS1b 1 Currency.EUR =
      specCurrentBalance exS1b 1 Currency.EUR :=
  ⟨(C1_balance_reads exS1b 1 Currency.EUR).1,
   (C1_balance_reads exS1b 1 Currency.EUR).2.1,
   (C1_balance_reads exS1b 1 Currency.EUR).2.2 (by decide)⟩

/-- Counterexample for C9: the prior ledger holds a single +40 EUR entry, so
the claim's "debt before" is −40, but the handler reports
`Math.abs(sum) = 40`. -/
theorem C9_counterexample :
    reportedDebtBefore exL9 exE1 ≠ specDebtBefore exL9 exE1 := by
  decide

/-- C9 (amended): for every debt-log entry E the reported "debt before" is
the absolute value of the sum of the amounts of same-client, same-currency
`manual_reduction` entries created more than one second before E (the
handler subtracts a one-second buffer and applies `Math.abs`, not a
negation); "debt after" re-applies `|E.amount|` with the sign inferred from
E's notes text ("increased"/"Debt increase"/"Added"/"Increased" add,
"reduced"/"removed"/"Reduced" subtract, otherwise the raw signed amount is
added), and is also displayed as an absolute value. -/
theorem C9_debt_log (l : List DebtAdjustment) (e : DebtAdjustment) :
    reportedDebtBefore l e =
      Int.natAbs (((l.filter (beforeMatches e)).map
        (fun x => x.amount)).sum) ∧
    reportedDebtAfter l e =
      Int.natAbs
        (if notesSayIncrease e.notes then
          (Int.natAbs (((l.filter (beforeMatches e)).map
            (fun x => x.amount)).sum) : Int) + Int.natAbs e.amount
         else if notesSayReduce e.notes then
          (Int.natAbs (((l.filter (beforeMatches e)).map
            (fun x => x.amount)).sum) : Int) - Int.natAbs e.amount
         else
          (Int.natAbs (((l.filter (beforeMatches e)).map
            (fun x => x.amount)).sum) : Int) + e.amount) := by
  have hbefore : debtBeforeOf l e =
      Int.natAbs (((l.filter (beforeMatches e)).map
        (fun x => x.amount)).sum) := by
    unfold debtBeforeOf
    rw [foldl_add_if (beforeMatches e) (fun x => x.amount) l 0, zero_add]
  constructor
  · unfold reportedDebtBefore
    rw [hbefore]
    simp
  · unfold reportedDebtAfter debtAfterOf
    rw [hbefore]

/-- C2: order-edit mutations are all-or-nothing. Validation failures
(missing product, insufficient stock) return an error and leave the state
untouched, and a failed debt-adjustment INSERT aborts the enclosing
transaction (the swallowed catch cannot rescue it: the next statement
throws and the handler rolls back), so a committed state never contains a
partial ledger write: any state committed under a failure oracle `f` equals
the state committed when no insert fails. -/
theorem C2_atomic_edit (s : DBState) (oid : Nat) (r : PutReq) (uid : Nat)
    (now : Int) (f : Currency → Bool) (s' : DBState)
    (hok : putOrder s oid r uid now f = Except.ok s') :
    putOrder s oid r uid now (fun _ => false) = Except.ok s' := by
  unfold putOrder at hok ⊢
  cases hfind : findOrder s oid with
  | none => rw [hfind] at hok; simp at hok
  | some o =>
      rw [hfind] at hok
      dsimp only at hok ⊢
      cases hits : r.items with
      | none => rw [hits] at hok; exact hok
      | some its =>
          rw [hits] at hok
          dsimp only at hok ⊢
          cases hch : checkItemsChanged (r.originalItems.getD []) its with
          | false =>
              rw [hch] at hok
              simp only [Bool.false_eq_true, if_false] at hok ⊢
              exact hok
          | true =>
              rw [hch] at hok
              simp only [eq_self_iff_true, if_true, applyStatusOpt_products,
                applyStatusOpt_orderItems, applyStatusOpt_adjustments,
                findOrder_applyStatusOpt_clientId, hfind,
                Option.some_bind] at hok ⊢
              cases happ : applyNewItems oid
                  (restoreStock s.products
                    (s.orderItems.filter (fun it => it.orderId == oid)))
                  [] its with
              | none => rw [happ] at hok; simp at hok
              | some pr =>
                  obtain ⟨ps2, rows⟩ := pr
                  rw [happ] at hok
                  dsimp only at hok ⊢
                  simp only [Bool.and_false, Bool.or_self,
                    Bool.false_eq_true, if_false]
                  split at hok
                  · cases hok
                  · exact hok

/-- Witness for C2: an MKD-only edit committed while the database would fail
every EUR ledger insert (none is attempted) commits exactly the state of the
failure-free run. -/
theorem C2_atomic_edit_witness :
    putOrder exS2 1 exR2 9 5000 (fun _ => false) = Except.ok exS2res :=
  C2_atomic_edit exS2 1 exR2 9 5000 (fun c => c == Currency.EUR) exS2res
    (by rfl)

theorem itemsQtyFor_nil (pid : Nat) : itemsQtyFor [] pid = 0 := rfl

theorem itemsQtyFor_cons (it : OrderItem) (its : List OrderItem) (pid : Nat) :
    itemsQtyFor (it :: its) pid =
      (if it.productId == pid then it.quantity else 0) + itemsQtyFor its pid := by
  unfold itemsQtyFor
  rw [List.filter_cons]
  split <;> simp

theorem stock_add_zero (p : Product) :
    ({ p with stockQuantity := p.stockQuantity + 0 } : Product) = p := by
  cases p
  simp

theorem map_stock_add_zero (ps : List Product) :
    ps.map (fun p => { p with stockQuantity := p.stockQuantity + 0 }) = ps := by
  induction ps with
  | nil => rfl
  | cons p t ih => rw [List.map_cons, stock_add_zero, ih]

/-- `restoreStock` adds, to every product row, exactly the total quantity the
item list records for that product's id. -/
theorem restoreStock_eq :
    ∀ (its : List OrderItem) (ps : List Product),
      restoreStock ps its =
        ps.map (fun p =>
          { p with stockQuantity := p.stockQuantity + itemsQtyFor its p.id }) := by
  intro its
  induction its with
  | nil =>
      intro ps
      exact (map_stock_add_zero ps).symm
  | cons it rest ih =>
      intro ps
      rw [restoreStock, ih, updateStockQty, List.map_map]
      apply List.map_congr_left
      intro p _
      simp only [Function.comp_apply]
      by_cases h : p.id = it.productId
      · have hb : (p.id == it.productId) = true := by simpa using h
        have hb' : (it.productId == p.id) = true := by simpa using h.symm
        simp only [hb, if_true, itemsQtyFor_cons, hb']
        show ({ p with stockQuantity := p.stockQuantity + it.quantity
            + itemsQtyFor rest p.id } : Product) = _
        rw [Product.mk.injEq]
        refine ⟨rfl, rfl, rfl, ?_, rfl, rfl⟩
        ring
      · have hb : (p.id == it.productId) = false := by simpa using h
        have hb' : (it.productId == p.id) = false := by
          simpa using fun hx => h hx.symm
        simp only [hb, if_false, itemsQtyFor_cons, hb', Bool.false_eq_true,
          zero_add]

/-- C6: deleting an order restores, for every product row, exactly the
quantity the order's stored items record for it (zero for unreferenced
products), removes the order and all its items, and leaves the ledger
untouched. -/
theorem C6_delete_order (s : DBState) (oid : Nat) (s' : DBState) (o : Order)
    (hfind : findOrder s oid = some o)
    (hok : deleteOrder s oid = Except.ok s') :
    s'.products = s.products.map (fun p =>
      { p with stockQuantity := p.stockQuantity + orderQtyFor s oid p.id }) ∧
    s'.orders = s.orders.filter (fun o => !(o.id == oid)) ∧
    s'.orderItems = s.orderItems.filter (fun it => !(it.orderId == oid)) ∧
    s'.adjustments = s.adjustments := by
  unfold deleteOrder at hok
  rw [hfind] at hok
  dsimp only at hok
  cases hok
  refine ⟨?_, rfl, rfl, rfl⟩
  show restoreStock s.products (s.orderItems.filter (fun it => it.orderId == oid)) = _
  rw [restoreStock_eq]
  rfl

/-- Witness for C6: deleting order #1 (qty 2 of product A, qty 3 of product
B) restores stocks 100/100/100 to 102/103/100 — exactly 2 and 3 units, with
the unreferenced product C unchanged. -/
theorem C6_delete_order_witness :
    (deleteOrder exS6 1 = Except.ok exS6res) ∧
    exS6res.products = exS6.products.map (fun p =>
      { p with stockQuantity := p.stockQuantity + orderQtyFor exS6 1 p.id }) ∧
    exS6res.products.map (fun p => p.stockQuantity) = [102, 103, 100] ∧
    exS6res.orders = [] ∧ exS6res.orderItems = [] :=
  ⟨by rfl,
   (C6_delete_order exS6 1 exS6res
      ⟨1, some 7, none, OrderStatus.pending, OrderStatus.pending, 25, 0, 25⟩
      (by rfl) (by rfl)).1,
   by decide, by decide, by decide⟩

/-- C7: the ledger effect of an order edit — whether the no-op branch is
taken, the per-currency net change, and the generated note text — depends
only on the caller-supplied `originalItems` and `items` payload (plus the
products table and the order row); two successful runs of the same request
against states that differ arbitrarily in the stored `order_items` rows
append identical ledger entries. The stored rows influence only the stock
restore step. -/
theorem C7_ledger_noninterference (sA sB : DBState) (oid : Nat) (r : PutReq)
    (uid : Nat) (now : Int) (f : Currency → Bool) (sA' sB' : DBState)
    (hprod : sA.products = sB.products)
    (hord : sA.orders = sB.orders)
    (hA : putOrder sA oid r uid now f = Except.ok sA')
    (hB : putOrder sB oid r uid now f = Except.ok sB') :
    ∃ tail, sA'.adjustments = sA.adjustments ++ tail ∧
      sB'.adjustments = sB.adjustments ++ tail := by
  cases hfA : findOrder sA oid with
  | none =>
      unfold putOrder at hA
      rw [hfA] at hA
      cases hA
  | some o =>
      have hfB : findOrder sB oid = some o := by
        unfold findOrder at hfA ⊢
        rw [← hord]
        exact hfA
      cases hits : r.items with
      | none =>
          rw [putOrder_noItems_spec sA oid r uid now f o hfA hits] at hA
          rw [putOrder_noItems_spec sB oid r uid now f o hfB hits] at hB
          cases hA
          cases hB
          exact ⟨[],
            by rw [applyStatusOpt_adjustments, List.append_nil],
            by rw [applyStatusOpt_adjustments, List.append_nil]⟩
      | some its =>
          cases hch : checkItemsChanged (r.originalItems.getD []) its with
          | false =>
              rw [putOrder_noop_spec sA oid r uid now f o its hfA hits hch]
                at hA
              rw [putOrder_noop_spec sB oid r uid now f o its hfB hits hch]
                at hB
              cases hA
              cases hB
              exact ⟨[],
                by rw [applyStatusOpt_adjustments, applyStatusOpt_adjustments,
                  List.append_nil],
                by rw [applyStatusOpt_adjustments, applyStatusOpt_adjustments,
                  List.append_nil]⟩
          | true =>
              obtain ⟨psA2, rowsA, happA, hprodA, hitemsA, hadjA⟩ :=
                putOrder_changed_spec sA oid r uid now f sA' o its hfA hits
                  hch hA
              obtain ⟨psB2, rowsB, happB, hprodB, hitemsB, hadjB⟩ :=
                putOrder_changed_spec sB oid r uid now f sB' o its hfB hits
                  hch hB
              refine ⟨editLedgerEntries
                (calculateNetDebtChange (categoryOf sA.products)
                  (r.originalItems.getD []) its oid) o.clientId uid now,
                hadjA, ?_⟩
              rw [hadjB, hprod]

/-- Witness for C7: the same edit request run on two states with identical
products and orders but entirely different stored item rows ({A:2, B:1}
versus {C:5}) appends the same ledger tail. -/
theorem C7_ledger_noninterference_witness :
    ∃ tail, exS3res.adjustments = exS3.adjustments ++ tail ∧
      exS7bres.adjustments = exS7b.adjustments ++ tail :=
  C7_ledger_noninterference exS3 exS7b 1 exR3 9 5000 (fun _ => false)
    exS3res exS7bres (by rfl) (by rfl) (by rfl) (by rfl)

/-- Counterexample for C5: a pending, non-guest order for one unit of a
zero-priced product is created successfully yet appends no ledger entry,
refuting the claimed "if and only if". -/
theorem C5_counterexample :
    exR5.guestName = none ∧ exR5.status = OrderStatus.pending ∧
    (postOrder exS5 exR5 ⟨1, true⟩ 0).map
      (fun t => t.1.adjustments.length) = Except.ok 0 :=
  ⟨rfl, rfl, rfl⟩

/-- C5 (amended): order creation appends debt-increase entries exactly when
the order is pending, non-guest, and has a positive final total in some
currency; per currency with a positive final total (the request's discounted
override when positive, otherwise the computed item total) one entry is
written whose amount is the negated final total. -/
theorem C5_creation_ledger (s : DBState) (r : PostReq) (caller : AuthUser)
    (now : Int) (s' : DBState) (oid : Nat)
    (vs : List VItem) (ta ep mp : Int)
    (hval : validateItems s.products r.items ([], 0, 0, 0) =
      Except.ok (vs, ta, ep, mp))
    (hok : postOrder s r caller now = Except.ok (s', oid)) :
    s'.adjustments = s.adjustments ++
      (if r.guestName = none ∧ r.status = OrderStatus.pending then
        (if (if r.totalEur > 0 then r.totalEur else ep) > 0 then
          [⟨r.requestedClientId.getD caller.id,
            -(if r.totalEur > 0 then r.totalEur else ep),
            AdjustmentType.manual_reduction, some Currency.EUR,
            createDebtNote (nextOrderId s) r.discount r.totalEur r.totalMkd,
            caller.id, now⟩]
         else []) ++
        (if (if r.totalMkd > 0 then r.totalMkd else mp) > 0 then
          [⟨r.requestedClientId.getD caller.id,
            -(if r.totalMkd > 0 then r.totalMkd else mp),
            AdjustmentType.manual_reduction, some Currency.MKD,
            createDebtNote (nextOrderId s) r.discount r.totalEur r.totalMkd,
            caller.id, now⟩]
         else [])
       else []) ∧
    (s'.adjustments ≠ s.adjustments ↔
      (r.guestName = none ∧ r.status = OrderStatus.pending ∧
        ((if r.totalEur > 0 then r.totalEur else ep) > 0 ∨
         (if r.totalMkd > 0 then r.totalMkd else mp) > 0))) := by
  unfold postOrder at hok
  split at hok
  · cases hok
  · split at hok
    · cases hok
    · rw [hval] at hok
      dsimp only at hok
      cases hok
      have heq : (s.adjustments ++
          (if r.guestName.isNone &&
              (if r.guestName.isSome then none
               else some (r.requestedClientId.getD caller.id)).isSome &&
              (r.status == OrderStatus.pending) then
            (if (if r.totalEur > 0 then r.totalEur else ep) > 0 then
              [⟨(if r.guestName.isSome then none
                 else some (r.requestedClientId.getD caller.id)).getD 0,
                -(if r.totalEur > 0 then r.totalEur else ep),
                AdjustmentType.manual_reduction, some Currency.EUR,
                createDebtNote (nextOrderId s) r.discount r.totalEur r.totalMkd,
                caller.id, now⟩]
             else []) ++
            (if (if r.totalMkd > 0 then r.totalMkd else mp) > 0 then
              [⟨(if r.guestName.isSome then none
                 else some (r.requestedClientId.getD caller.id)).getD 0,
                -(if r.totalMkd > 0 then r.totalMkd else mp),
                AdjustmentType.manual_reduction, some Currency.MKD,
                createDebtNote (nextOrderId s) r.discount r.totalEur r.totalMkd,
                caller.id, now⟩]
             else [])
           else []) : List DebtAdjustment) =
          s.adjustments ++
          (if r.guestName = none ∧ r.status = OrderStatus.pending then
            (if (if r.totalEur > 0 then r.totalEur else ep) > 0 then
              [⟨r.requestedClientId.getD caller.id,
                -(if r.totalEur > 0 then r.totalEur else ep),
                AdjustmentType.manual_reduction, some Currency.EUR,
                createDebtNote (nextOrderId s) r.discount r.totalEur r.totalMkd,
                caller.id, now⟩]
             else []) ++
            (if (if r.totalMkd > 0 then r.totalMkd else mp) > 0 then
              [⟨r.requestedClientId.getD caller.id,
                -(if r.totalMkd > 0 then r.totalMkd else mp),
                AdjustmentType.manual_reduction, some Currency.MKD,
                createDebtNote (nextOrderId s) r.discount r.totalEur r.totalMkd,
                caller.id, now⟩]
             else [])
           else []) := by
        cases hg : r.guestName with
        | some g => simp [hg]
        | none =>
            by_cases hp : r.status = OrderStatus.pending
            · simp [hg, hp]
            · have hpb : (r.status == OrderStatus.pending) = false := by
                simpa using hp
              simp [hg, hp, hpb]
      refine ⟨heq, ?_⟩
      rw [heq]
      rw [ne_eq, List.append_right_eq_self]
      by_cases hc : r.guestName = none ∧ r.status = OrderStatus.pending
      · by_cases he : (if r.totalEur > 0 then r.totalEur else ep) > 0 <;>
          by_cases hm : (if r.totalMkd > 0 then r.totalMkd else mp) > 0 <;>
            simp [hc, he, hm, and_assoc]
      · simp [hc]
        intro h1 h2
        exact absurd ⟨h1, h2⟩ hc

/-- Witness for C5 (amended): a pending client order of two units of product
A (10 MKD each) appends a ledger entry, per the amended characterization. -/
theorem C5_creation_ledger_witness :
    exS5bres.adjustments ≠ exS2.adjustments := by
  have h := C5_creation_ledger exS2 exR5b ⟨1, true⟩ 0 exS5bres 2
    [⟨1, 2, 10, "A", Category.accessories⟩] 20 0 20 (by rfl) (by rfl)
  rw [h.2]
  exact ⟨rfl, rfl, Or.inr (by decide)⟩

theorem sum_map_add_distrib {α : Type} (f g : α → Int) :
    ∀ (l : List α),
      (l.map (fun x => f x + g x)).sum = (l.map f).sum + (l.map g).sum := by
  intro l
  induction l with
  | nil => simp
  | cons x xs ih => simp [ih]; ring

/-- When no order in the list carries id `x`, the per-order selector sums to
zero. -/
theorem sum_if_id_zero (x : Nat) (v : Int) :
    ∀ (l : List Order), (x ∉ l.map (fun o => o.id)) →
      (l.map (fun o => if x == o.id then v else 0)).sum = 0 := by
  intro l
  induction l with
  | nil => intro _; rfl
  | cons o os ih =>
      intro hx
      simp only [List.map_cons, List.mem_cons, not_or] at hx
      obtain ⟨hne, hrest⟩ := hx
      have hb : (x == o.id) = false := by simpa using hne
      simp only [List.map_cons, List.sum_cons, hb, Bool.false_eq_true,
        if_false, zero_add]
      exact ih hrest

/-- With unique order ids, summing a single-id selector over a filtered
order list agrees with the `find?`-based row lookup. -/
theorem sum_filter_single (p : Order → Bool) (x : Nat) (v : Int) :
    ∀ (l : List Order), (l.map (fun o => o.id)).Nodup →
      ((l.filter p).map (fun o => if x == o.id then v else 0)).sum =
        (match l.find? (fun o => o.id == x) with
         | none => 0
         | some o => if p o then v else 0) := by
  intro l
  induction l with
  | nil => intro _; rfl
  | cons o os ih =>
      intro hnodup
      simp only [List.map_cons, List.nodup_cons] at hnodup
      obtain ⟨hni, hnd⟩ := hnodup
      rw [List.filter_cons, List.find?_cons]
      cases hx : (o.id == x) with
      | true =>
          have hxe : o.id = x := by simpa using hx
          have hxb : (x == o.id) = true := by simpa using hxe.symm
          have hzero : ((os.filter p).map
              (fun o => if x == o.id then v else 0)).sum = 0 := by
            have hmem : x ∉ (os.filter p).map (fun o => o.id) := by
              intro hmm
              apply hni
              rw [← hxe] at hmm
              obtain ⟨o', ho', hid⟩ := List.mem_map.mp hmm
              exact List.mem_map.mpr ⟨o', List.mem_of_mem_filter ho', hid⟩
            exact sum_if_id_zero x v (os.filter p) hmem
          cases hp : p o with
          | true =>
              simp only [hp, if_true, List.map_cons, List.sum_cons, hxb,
                hzero]
              ring
          | false =>
              simp only [hp, Bool.false_eq_true, if_false, hzero]
      | false =>
          have hxb : (x == o.id) = false := by
            have : ¬o.id = x := by simpa using hx
            simpa using fun hh => this hh.symm
          cases hp : p o with
          | true =>
              simp only [hp, if_true, List.map_cons, List.sum_cons, hxb,
                Bool.false_eq_true, if_false, zero_add]
              exact ih hnd
          | false =>
              simp only [hp, Bool.false_eq_true, if_false]
              exact ih hnd

/-- Grouping the per-item revenue rows by order: with unique order ids, the
row-by-row revenue selector sums to the per-order item totals over the
filtered orders. -/
theorem group_revenue_rows (orders : List Order) (ps : List Product)
    (c : Currency) (p : Order → Bool)
    (hnodup : (orders.map (fun o => o.id)).Nodup) :
    ∀ (items : List OrderItem),
      (items.map (fun it =>
        match orders.find? (fun o => o.id == it.orderId) with
        | none => 0
        | some o => if p o then lineRevenue ps it c else 0)).sum =
      ((orders.filter p).map (fun o =>
        ((items.filter (fun it => it.orderId == o.id)).map
          (fun it => lineRevenue ps it c)).sum)).sum := by
  intro items
  induction items with
  | nil =>
      simp
  | cons it rest ih =>
      simp only [List.map_cons, List.sum_cons]
      have hsplit : ∀ o : Order,
          (((it :: rest).filter (fun x => x.orderId == o.id)).map
            (fun x => lineRevenue ps x c)).sum =
          (if it.orderId == o.id then lineRevenue ps it c else 0) +
            ((rest.filter (fun x => x.orderId == o.id)).map
              (fun x => lineRevenue ps x c)).sum := by
        intro o
        rw [List.filter_cons]
        cases h : (it.orderId == o.id) with
        | true => simp [h]
        | false => simp [h]
      rw [List.map_congr_left (fun o _ => hsplit o), sum_map_add_distrib, ih,
        sum_filter_single p it.orderId (lineRevenue ps it c) orders hnodup]

/-- Counterexample for C10: a completed order with a 20 MKD discount has
charged total 80 but item line total 100; the revenue endpoint reports 100,
not the summed charged totals. -/
theorem C10_counterexample :
    revenueAll exS10 Currency.MKD + revenueAll exS10 Currency.EUR ≠
      specChargedRevenue exS10 := by
  decide

/-- C10 (amended): for states with unique order ids, the revenue endpoint
reports, per currency, the sum over completed orders of their item line
totals (quantity × snapshotted price, routed EUR for smartphones and MKD
otherwise) — the pre-discount totals; the per-client profile reports the
same restricted to that client's completed orders; revenue is derived only
from orders/items/products and never from the ledger; and it coincides with
the summed charged totals exactly on states where no completed order is
discounted. -/
theorem C10_revenue (s : DBState)
    (hnodup : (s.orders.map (fun o => o.id)).Nodup) :
    (∀ c, revenueAll s c =
      ((s.orders.filter (fun o => o.status == OrderStatus.completed)).map
        (fun o => orderCurrencyTotal s o.id c)).sum) ∧
    (∀ uid c, profileRevenue s uid c =
      ((s.orders.filter (fun o =>
          o.status == OrderStatus.completed && o.clientId == some uid)).map
        (fun o => orderCurrencyTotal s o.id c)).sum) ∧
    (∀ l c, revenueAll { s with adjustments := l } c = revenueAll s c) ∧
    ((∀ o ∈ s.orders, o.status = OrderStatus.completed →
        o.totalAmount = orderCurrencyTotal s o.id Currency.EUR +
          orderCurrencyTotal s o.id Currency.MKD) →
      revenueAll s Currency.EUR + revenueAll s Currency.MKD =
        specChargedRevenue s) := by
  have hall : ∀ c, revenueAll s c =
      ((s.orders.filter (fun o => o.status == OrderStatus.completed)).map
        (fun o => orderCurrencyTotal s o.id c)).sum := by
    intro c
    unfold revenueAll
    rw [List.foldl_ext _
      (fun a it => a +
        (match s.orders.find? (fun o => o.id == it.orderId) with
         | none => 0
         | some o => if o.status == OrderStatus.completed then
             lineRevenue s.products it c else 0))
      0
      (by
        intro a it _
        cases hf : s.orders.find? (fun o => o.id == it.orderId) with
        | none => simp [hf]
        | some o =>
            cases hc : (o.status == OrderStatus.completed) with
            | true => simp [hf, hc]
            | false => simp [hf, hc])]
    rw [foldl_add _ s.orderItems 0, zero_add]
    exact group_revenue_rows s.orders s.products c
      (fun o => o.status == OrderStatus.completed) hnodup s.orderItems
  have hprofile : ∀ uid c, profileRevenue s uid c =
      ((s.orders.filter (fun o =>
          o.status == OrderStatus.completed && o.clientId == some uid)).map
        (fun o => orderCurrencyTotal s o.id c)).sum := by
    intro uid c
    unfold profileRevenue
    rw [List.foldl_ext _
      (fun a it => a +
        (match s.orders.find? (fun o => o.id == it.orderId) with
         | none => 0
         | some o => if o.status == OrderStatus.completed &&
             o.clientId == some uid then
             lineRevenue s.products it c else 0))
      0
      (by
        intro a it _
        cases hf : s.orders.find? (fun o => o.id == it.orderId) with
        | none => simp [hf]
        | some o =>
            cases hc : (o.status == OrderStatus.completed &&
                o.clientId == some uid) with
            | true => simp [hf, hc]
            | false => simp [hf, hc])]
    rw [foldl_add _ s.orderItems 0, zero_add]
    exact group_revenue_rows s.orders s.products c
      (fun o => o.status == OrderStatus.completed && o.clientId == some uid)
      hnodup s.orderItems
  refine ⟨hall, hprofile, fun l c => rfl, ?_⟩
  intro hnodis
  rw [hall Currency.EUR, hall Currency.MKD, ← sum_map_add_distrib]
  unfold specChargedRevenue
  apply congrArg
  apply List.map_congr_left
  intro o ho
  have hmem : o ∈ s.orders := List.mem_of_mem_filter ho
  have hst : o.status = OrderStatus.completed := by
    have := List.of_mem_filter ho
    simpa using this
  exact (hnodis o hmem hst).symm

/-- Witness for C10 (amended): at the discounted-order state, the MKD
revenue figure equals the per-order item totals of completed orders. -/
theorem C10_revenue_witness :
    revenueAll exS10 Currency.MKD =
      ((exS10.orders.filter (fun o =>
          o.status == OrderStatus.completed)).map
        (fun o => orderCurrencyTotal exS10 o.id Currency.MKD)).sum :=
  (C10_revenue exS10 (by decide)).1 Currency.MKD
